import Mathlib

/-!
Shallow embedding of the ndf ingestion pipeline (`src/ingest.py`) and the
reconciliation endpoint (`src/api/main.py`).

Filesystem paths are modelled as lists of segments (`List String`), file
contents as lists of bytes (`List Nat`), and timestamps as naturals.  Remote
services (the Tika extraction service and the OpenSearch index) are modelled
as oracles passed to the functions that call them.
-/

namespace NDF

/-- Python `str.startswith`, over the character lists (structural, so that
concrete instances evaluate inside the kernel). -/
def strStartsWith (s pre : String) : Bool := pre.toList.isPrefixOf s.toList

/-- ASCII lower-casing of one character (the range Python `str.lower`
touches for the extension set used here). -/
def charToLower (c : Char) : Char :=
  if 65 ≤ c.toNat ∧ c.toNat ≤ 90 then Char.ofNat (c.toNat + 32) else c

/-- Python `str.lower`, over the character list. -/
def strToLower (s : String) : String := String.mk (s.toList.map charToLower)

/-- `is_hidden` (src/ingest.py:29-30): any path segment starts with a dot. -/
def isHidden (parts : List String) : Bool :=
  parts.any (fun part => strStartsWith part ("."))

/-- Index of the last occurrence of a dot in a list of characters
(Python `str.rfind`). -/
def lastDotIdx (cs : List Char) : Option Nat :=
  (List.range cs.length).foldl
    (fun acc i => if cs.getD i ' ' = '.' then some i else acc) none

/-- `pathlib.PurePath.suffix`: the extension of the final component, i.e. the
part from the last dot on, provided that dot is neither the first nor the
last character of the name. -/
def pySuffix (name : String) : String :=
  let cs := name.toList
  match lastDotIdx cs with
  | none => ""
  | some i => if 0 < i && i + 1 < cs.length then String.mk (cs.drop i) else ""

/-- `pathlib.PurePath.stem`: the final component without its suffix. -/
def pyStem (name : String) : String :=
  let cs := name.toList
  match lastDotIdx cs with
  | none => name
  | some i => if 0 < i && i + 1 < cs.length then String.mk (cs.take i) else name

/-- Python `ext.lstrip(".")`: remove all leading dots. -/
def lstripDots (s : String) : String :=
  String.mk (s.toList.dropWhile (fun c => c = '.'))

/-- `ALLOW_EXTS` (src/ingest.py:22). -/
def ALLOW_EXTS : List String := [".pdf", ".doc", ".docx", ".xls", ".xlsx"]

/-- Python `"/".join`, used to render a relative path back to a string. -/
def joinParts (ps : List String) : String := String.intercalate ("/") ps

/-- Process configuration read from the environment (src/ingest.py:23-26).
Empty filter lists model unset `FILTER_LEVEL1` / `FILTER_LEVEL2`;
`max_docs = 0` models an unset `MAX_DOCS` cap. -/
structure Config where
  filter_level1 : List String
  filter_level2 : List String
  max_docs : Nat
  max_ocr_mb : Nat
deriving Repr, DecidableEq

/-- A filesystem subtree: regular files carry bytes and an mtime. -/
inductive FSEntry where
  | file (name : String) (bytes : List Nat) (mtime : Nat) : FSEntry
  | dir (name : String) (entries : List FSEntry) : FSEntry

/-- A regular file found by a recursive walk: absolute path segments,
final name, content bytes, mtime. -/
structure FileInfo where
  parts : List String
  name : String
  bytes : List Nat
  mtime : Nat
deriving Repr, DecidableEq

mutual
/-- The regular files strictly below a directory entry placed at `pfx`
(`Path.rglob("*")` restricted by the `is_file()` check of
src/ingest.py:63-64). -/
def filesUnder (pfx : List String) : FSEntry → List FileInfo
  | .file n b t => [⟨pfx ++ [n], n, b, t⟩]
  | .dir n es => filesUnderList (pfx ++ [n]) es

/-- `filesUnder` over a list of sibling entries sharing the parent `pfx`. -/
def filesUnderList (pfx : List String) : List FSEntry → List FileInfo
  | [] => []
  | e :: es => filesUnder pfx e ++ filesUnderList pfx es
end

/-! ## Hashing -/

/-- The streaming loop of `compute_sha256` (src/ingest.py:33-38): the file is
read in 8192-byte chunks and each chunk is fed to the hasher.  The hasher
state is modelled as the byte sequence absorbed so far; the digest function
itself (SHA-256) is kept as a parameter, since every claim depends only on
the digest being a function of the absorbed bytes. -/
def sha256Loop (absorbed rest : List Nat) : List Nat :=
  if h : rest = [] then absorbed
  else sha256Loop (absorbed ++ rest.take 8192) (rest.drop 8192)
termination_by rest.length
decreasing_by
  simp only [List.length_drop]
  have := List.length_pos.mpr h
  omega

/-- `compute_sha256` (src/ingest.py:33-38): digest of the absorbed stream. -/
def computeSha256 (digest : List Nat → String) (bytes : List Nat) : String :=
  digest (sha256Loop [] bytes)

/-! ## Records -/

/-- Extraction output of `tika_extract_text` (src/ingest.py:100-104). -/
structure Meta where
  title : String
  content : String
  media_type : String
deriving Repr, DecidableEq

/-- The per-file payload yielded by `iter_documents` (src/ingest.py:75-82)
and built by `index_path` (src/ingest.py:192-199). -/
structure Payload where
  path : List String
  file_name : String
  level1 : String
  level2 : String
  ext : String
  relative_subpath : String
deriving Repr, DecidableEq

/-- The document record built by `build_doc` (src/ingest.py:155-169). -/
structure Doc where
  id : String
  path : List String
  file_name : String
  level1 : String
  level2 : String
  title : String
  content : String
  media_type : String
  ext : String
  modified_at : Nat
  size_bytes : Nat
  sha256 : String
  suggest : List String
deriving Repr, DecidableEq

/-- The default metadata `{"title": p.stem, "content": "", "media_type": ""}`
of src/ingest.py:137, `p` being `Path(payload["path"])`. -/
def defaultMeta (payload : Payload) : Meta :=
  { title := pyStem (payload.path.getLastD (""))
  , content := ""
  , media_type := "" }

/-- The `size_mb <= MAX_OCR_MB` test of src/ingest.py:140-141.  Python
divides `st_size` by `1024*1024` in binary floating point; division by a
power of two is exact there, so the test equals this integer comparison. -/
def withinOcrLimit (cfg : Config) (sizeBytes : Nat) : Bool :=
  decide (sizeBytes ≤ cfg.max_ocr_mb * (1024 * 1024))

/-- The metadata chosen by `build_doc` (src/ingest.py:137-145): the default,
with extraction attempted only when the size is within the OCR limit, and
the default kept when the extraction call fails (the `except: pass`).
`extract = none` models an extraction failure (after retry exhaustion). -/
def buildDocMeta (cfg : Config) (payload : Payload) (sizeBytes : Nat)
    (extract : Option Meta) : Meta :=
  if withinOcrLimit cfg sizeBytes then extract.getD (defaultMeta payload)
  else defaultMeta payload

/-- `suggest_terms` and the deduplicating set of src/ingest.py:147-153 and
168.  The Python `set` iteration order is unspecified; it is fixed here by
`List.dedup`. -/
def suggestTerms (payload : Payload) (meta : Meta) : List String :=
  let terms :=
    (if payload.level1 ≠ "" then [payload.level1] else []) ++
    (if payload.level2 ≠ "" then [payload.level2] else []) ++
    (if meta.title ≠ "" then [meta.title] else [])
  (terms.filter (fun t => t ≠ "")).dedup

/-- `build_doc` (src/ingest.py:133-170).  The `stat` result is passed as the
file's bytes (whose length is `st_size`) and its mtime; `to_iso` being
injective on timestamps, `modified_at` keeps the numeric timestamp. -/
def buildDoc (cfg : Config) (digest : List Nat → String) (payload : Payload)
    (bytes : List Nat) (mtime : Nat) (extract : Option Meta) : Doc :=
  let sha := computeSha256 digest bytes
  let meta := buildDocMeta cfg payload bytes.length extract
  { id := sha
  , path := payload.path
  , file_name := payload.file_name
  , level1 := payload.level1
  , level2 := payload.level2
  , title := if meta.title = "" then pyStem payload.file_name else meta.title
  , content := meta.content
  , media_type := meta.media_type
  , ext := payload.ext
  , modified_at := mtime
  , size_bytes := bytes.length
  , sha256 := sha
  , suggest := suggestTerms payload meta }

/-! ## Indexing -/

/-- The identifier used by `index_document` (src/ingest.py:128):
`doc.get("sha256") or doc.get("id")`. -/
def docId (doc : Doc) : String := if doc.sha256 = "" then doc.id else doc.sha256

/-- The external index, as a key-value store keyed by document id. -/
def Index : Type := String → Option Doc

/-- `index_document` (src/ingest.py:124-130): the `PUT` of `doc` at `doc_id`
is an overwrite-upsert on the index. -/
def indexDocument (idx : Index) (doc : Doc) : Index :=
  fun k => if k = docId doc then some doc else idx k

/-! ## Discovery (batch pass) -/

/-- `str(file_path.parent.relative_to(level2_dir)) if file_path.parent != level2_dir else ""`
(src/ingest.py:72). -/
def relSub (l2parts fparts : List String) : String :=
  let parent := fparts.dropLast
  if parent = l2parts then "" else joinParts (parent.drop l2parts.length)

/-- `iter_documents` (src/ingest.py:45-84).  `root = none` models a missing
`ROOT`; otherwise `root` holds the entries of the root directory, whose
resolved path is `rootParts`.  The `yielded >= MAX_DOCS` early return is
rendered as a `take` of the generated sequence. -/
def iterDocuments (cfg : Config) (rootParts : List String)
    (root : Option (List FSEntry)) : List Payload :=
  match root with
  | none => []
  | some entries =>
    let all := entries.flatMap (fun e1 =>
      match e1 with
      | .file _ _ _ => []
      | .dir level1 es1 =>
        if isHidden (rootParts ++ [level1]) then [] else
        if cfg.filter_level1 ≠ [] ∧ level1 ∉ cfg.filter_level1 then [] else
        es1.flatMap (fun e2 =>
          match e2 with
          | .file _ _ _ => []
          | .dir level2 es2 =>
            if isHidden (rootParts ++ [level1, level2]) then [] else
            if cfg.filter_level2 ≠ [] ∧ level2 ∉ cfg.filter_level2 then [] else
            (filesUnderList (rootParts ++ [level1, level2]) es2).filterMap
              (fun fi =>
                if isHidden fi.parts || strStartsWith fi.name ("~$") then none else
                let ext := strToLower (pySuffix fi.name)
                if ext ∉ ALLOW_EXTS then none else
                some { path := fi.parts
                     , file_name := fi.name
                     , level1 := level1
                     , level2 := level2
                     , ext := lstripDots ext
                     , relative_subpath :=
                        relSub (rootParts ++ [level1, level2]) fi.parts })))
    if cfg.max_docs = 0 then all else all.take cfg.max_docs

/-! ## Watch-triggered path -/

/-- `Path.relative_to`: strip `rootParts` when it is a path prefix of the
file's parts, otherwise fail (`ValueError`). -/
def relativeTo (fileParts rootParts : List String) : Option (List String) :=
  if rootParts.isPrefixOf fileParts then some (fileParts.drop rootParts.length)
  else none

/-- `derive_levels` (src/ingest.py:172-180): the first two segments of the
path relative to the root, provided there are at least three. -/
def deriveLevels (rootParts fileParts : List String) : Option (String × String) :=
  match relativeTo fileParts rootParts with
  | none => none
  | some rel =>
    if rel.length < 3 then none
    else some (rel.getD 0 (""), rel.getD 1 (""))

/-- Outcome of one watch event: dropped, indexed, or failed-and-logged. -/
inductive WatchAction where
  | skipped : WatchAction
  | indexed (doc : Doc) : WatchAction
  | failed (doc : Doc) : WatchAction
deriving Repr, DecidableEq

/-- `index_path` (src/ingest.py:183-205).  The filesystem state of the event
path is `none` when the path does not exist, otherwise
`some (isFile, bytes, mtime)`; `extract` and `indexOk` are the remote-call
oracles (extraction result, upsert success). -/
def indexPath (cfg : Config) (digest : List Nat → String) (rootParts : List String)
    (fileParts : List String) (fstate : Option (Bool × List Nat × Nat))
    (extract : Option Meta) (indexOk : Bool) : WatchAction :=
  match fstate with
  | none => .skipped
  | some (isFile, bytes, mtime) =>
    if !isFile then .skipped else
    let name := fileParts.getLastD ("")
    let ext := strToLower (pySuffix name)
    if ext ∉ ALLOW_EXTS then .skipped else
    match deriveLevels rootParts fileParts with
    | none => .skipped
    | some (l1, l2) =>
      let payload : Payload :=
        { path := fileParts, file_name := name, level1 := l1, level2 := l2
        , ext := lstripDots ext, relative_subpath := "" }
      let doc := buildDoc cfg digest payload bytes mtime extract
      if indexOk then .indexed doc else .failed doc

/-! ## Retry policy

The retry engine itself lives in the third-party `tenacity` library, not in
this repository; src/ingest.py:87 and 124 only configure it with
`wait_exponential(multiplier=1, min=1, max=8)` and `stop_after_attempt(5)`.
The engine is therefore modelled from the spec. -/

/-- Modelled from the spec: the wait slept after failed attempt number `n`
(missing: tenacity's `wait_exponential`): exponential backoff starting at 1
time unit, doubling, capped at 8, floored at the configured minimum. -/
def waitExponential (multiplier minW maxW n : Nat) : Nat :=
  max minW (min maxW (multiplier * 2 ^ (n - 1)))

/-- Modelled from the spec (missing: tenacity's retry loop): run `attempt`
for at most `remaining` further attempts, the current one being attempt
number `n`.  Returns the result (`none` when every attempt failed), the
number of the last attempt made, and the waits slept between attempts. -/
def retryGo {α : Type} (attempt : Nat → Option α) :
    Nat → Nat → Option α × Nat × List Nat
  | n, 0 => (none, n - 1, [])
  | n, remaining + 1 =>
    match attempt n with
    | some a => (some a, n, [])
    | none =>
      if remaining = 0 then (none, n, [])
      else
        let r := retryGo attempt (n + 1) remaining
        (r.1, r.2.1, waitExponential 1 1 8 n :: r.2.2)

/-- Modelled from the spec: the retry policy shared by `tika_extract_text`
and `index_document` — first attempt numbered 1, at most 5 attempts. -/
def retryCall {α : Type} (attempt : Nat → Option α) : Option α × Nat × List Nat :=
  retryGo attempt 1 5

/-- `tika_extract_text` under its retry decorator (src/ingest.py:87-88):
attempt `k` produces `some meta` on success, `none` on any transport or
non-success-status failure. -/
def tikaExtractWithRetry (attempt : Nat → Option Meta) :
    Option Meta × Nat × List Nat :=
  retryCall attempt

/-- `index_document` under its retry decorator (src/ingest.py:124-125):
attempt `k` yields the updated index on success. -/
def indexDocumentWithRetry (attempt : Nat → Option Index) :
    Option Index × Nat × List Nat :=
  retryCall attempt

/-! ## Batch pass -/

/-- Running state of the batch loop in `main` (src/ingest.py:226-236):
the running count, the successfully indexed documents in order, and the
logged per-file errors (path, message). -/
structure BatchState where
  total : Nat
  indexed : List Doc
  errors : List (List String × String)
deriving Repr, DecidableEq

/-- One iteration of the batch loop (src/ingest.py:228-235): build and index
the payload; any exception is caught, logged with the payload's path, and
the loop continues. -/
def batchStep (process : Payload → Except String Doc) (st : BatchState)
    (p : Payload) : BatchState :=
  match process p with
  | .ok doc => { st with total := st.total + 1, indexed := st.indexed ++ [doc] }
  | .error e => { st with errors := st.errors ++ [(p.path, e)] }

/-- The batch pass of `main` over the discovery sequence. -/
def runBatch (process : Payload → Except String Doc) (st : BatchState)
    (payloads : List Payload) : BatchState :=
  payloads.foldl (batchStep process) st

/-! ## Reconciliation (`/api/stats`) -/

/-- Python `dict.get(k, 0)` on a count map modelled as an association
list. -/
def lookupCount (m : List (String × Nat)) (k : String) : Nat :=
  match m.find? (fun kv => kv.1 == k) with
  | some kv => kv.2
  | none => 0

/-- Lexicographic comparison of character lists by code point (the order
Python `sorted` uses on strings), written structurally so that concrete
instances evaluate inside the kernel. -/
def charListLt : List Char → List Char → Bool
  | [], [] => false
  | [], _ :: _ => true
  | _ :: _, [] => false
  | c :: cs, d :: ds =>
    if c.toNat < d.toNat then true
    else if d.toNat < c.toNat then false
    else charListLt cs ds

/-- Python `<` on strings. -/
def strLt (a b : String) : Bool := charListLt a.toList b.toList

/-- Insert a key into an ascending list of keys. -/
def insertKey (x : String) : List String → List String
  | [] => [x]
  | y :: ys => if strLt x y then x :: y :: ys else y :: insertKey x ys

/-- Python `sorted` over a set of keys. -/
def sortKeys (l : List String) : List String := l.foldr insertKey []

/-- `diff_maps` inside `stats` (src/api/main.py:368-370): over the union of
the two key sets, disk count minus index count, absent keys counting 0. -/
def diffMaps (a b : List (String × Nat)) : List (String × Int) :=
  let keys := ((a.map Prod.fst) ++ (b.map Prod.fst)).dedup
  (sortKeys keys).map
    (fun k => (k, (lookupCount a k : Int) - (lookupCount b k : Int)))

/-- The result of `_scan_disk_stats` (src/api/main.py:304-311). -/
structure DiskStats where
  root : List String
  total : Nat
  by_level1 : List (String × Nat)
  by_level2 : List (String × Nat)
  by_level1_level2 : List (String × List (String × Nat))
deriving Repr, DecidableEq

/-- Add `v` to the count stored at `k` (Python `m[k] = m.get(k, 0) + v`),
appending the key in insertion order when absent. -/
def bumpCount (m : List (String × Nat)) (k : String) (v : Nat) :
    List (String × Nat) :=
  match m.find? (fun kv => kv.1 == k) with
  | some _ => m.map (fun kv => if kv.1 == k then (kv.1, kv.2 + v) else kv)
  | none => m ++ [(k, v)]

/-- Set the nested count `m[k1][k2] = v` (src/api/main.py:334-336). -/
def setNested (m : List (String × List (String × Nat))) (k1 k2 : String)
    (v : Nat) : List (String × List (String × Nat)) :=
  match m.find? (fun kv => kv.1 == k1) with
  | some _ =>
    m.map (fun kv => if kv.1 == k1 then (kv.1, kv.2 ++ [(k2, v)]) else kv)
  | none => m ++ [(k1, [(k2, v)])]

/-- The number of eligible files counted under one level-2 directory
(src/api/main.py:324-331): regular files, not hidden, not office lock files,
with an allowed extension. -/
def eligibleCount (pfx : List String) (es : List FSEntry) : Nat :=
  ((filesUnderList pfx es).filter (fun fi =>
    !(isHidden fi.parts) && !(strStartsWith fi.name ("~$")) &&
    ALLOW_EXTS.contains (strToLower (pySuffix fi.name)))).length

/-- `_scan_disk_stats` (src/api/main.py:304-339).  `root = none` models a
missing document root: the empty statistics are returned unchanged. -/
def scanDiskStats (rootParts : List String) (root : Option (List FSEntry)) :
    DiskStats :=
  let empty : DiskStats :=
    { root := rootParts, total := 0, by_level1 := [], by_level2 := []
    , by_level1_level2 := [] }
  match root with
  | none => empty
  | some entries =>
    entries.foldl (fun st e1 =>
      match e1 with
      | .file _ _ _ => st
      | .dir level1 es1 =>
        if isHidden (rootParts ++ [level1]) then st else
        let stepL2 := fun (acc : DiskStats × Nat) (e2 : FSEntry) =>
          match e2 with
          | .file _ _ _ => acc
          | .dir level2 es2 =>
            if isHidden (rootParts ++ [level1, level2]) then acc else
            let cnt := eligibleCount (rootParts ++ [level1, level2]) es2
            let st1 := acc.1
            let st2 :=
              { st1 with
                total := st1.total + cnt
              , by_level2 :=
                  if cnt = 0 then st1.by_level2
                  else bumpCount st1.by_level2 level2 cnt
              , by_level1_level2 :=
                  if cnt = 0 then st1.by_level1_level2
                  else setNested st1.by_level1_level2 level1 level2 cnt }
            (st2, acc.2 + cnt)
        let inner := es1.foldl stepL2 (st, 0)
        if inner.2 = 0 then inner.1
        else { inner.1 with
               by_level1 := bumpCount inner.1.by_level1 level1 inner.2 })
      empty

/-- The result of `_fetch_index_stats` (src/api/main.py:342-357). -/
structure IndexStats where
  total : Nat
  by_level1 : List (String × Nat)
  by_level2 : List (String × Nat)
deriving Repr, DecidableEq

/-- The `diff` object built by `stats` (src/api/main.py:372-376). -/
structure StatsDiff where
  total_missing : Int
  by_level1_missing : List (String × Int)
  by_level2_missing : List (String × Int)
deriving Repr, DecidableEq

/-- The response of `/api/stats` (src/api/main.py:377). -/
structure StatsResponse where
  doc_root : List String
  disk : DiskStats
  index : IndexStats
  diff : StatsDiff
deriving Repr, DecidableEq

/-- The `/api/stats` endpoint (src/api/main.py:360-377).  `fetch` is the
outcome of `_fetch_index_stats`; its failure becomes an HTTP 502 carrying
an upstream-error detail, while the disk scan itself never fails. -/
def statsEndpoint (rootParts : List String) (root : Option (List FSEntry))
    (fetch : Except String IndexStats) : Except (Nat × String) StatsResponse :=
  let disk := scanDiskStats rootParts root
  match fetch with
  | .error e => .error (502, "OpenSearch error: " ++ e)
  | .ok index =>
    .ok { doc_root := disk.root
        , disk := disk
        , index := index
        , diff :=
          { total_missing := (disk.total : Int) - (index.total : Int)
          , by_level1_missing := diffMaps disk.by_level1 index.by_level1
          , by_level2_missing := diffMaps disk.by_level2 index.by_level2 } }

/-! ## Concrete example inputs (used by witnesses and counterexamples) -/

/-- An unfiltered configuration with the default thresholds. -/
def cfgNil : Config :=
  { filter_level1 := [], filter_level2 := [], max_docs := 0, max_ocr_mb := 30 }

/-- A configuration whose level-1 allow-list excludes the example tree. -/
def cfgFiltered : Config :=
  { filter_level1 := ["X"], filter_level2 := [], max_docs := 0, max_ocr_mb := 30 }

/-- A configuration with a zero OCR size threshold. -/
def cfgZeroOcr : Config :=
  { filter_level1 := [], filter_level2 := [], max_docs := 0, max_ocr_mb := 0 }

/-- A concrete stand-in digest function. -/
def dig0 : List Nat → String := fun _ => "h"

/-- A tiny document tree: `c1/c2/a.pdf`. -/
def fsEx : List FSEntry := [.dir "c1" [.dir "c2" [.file "a.pdf" [7] 3]]]

/-- The payload the batch pass yields for `root/c1/c2/a.pdf`. -/
def payEx : Payload :=
  { path := ["root", "c1", "c2", "a.pdf"], file_name := "a.pdf"
  , level1 := "c1", level2 := "c2", ext := "pdf", relative_subpath := "" }

/-- A per-file processor that always fails. -/
def procFail : Payload → Except String Doc := fun _ => Except.error "boom"

/-- The empty batch state. -/
def st0 : BatchState := { total := 0, indexed := [], errors := [] }

/-! ## Helper lemmas -/

/-- Streaming the bytes through the hasher in 8192-byte chunks absorbs
exactly the file's byte sequence. -/
theorem sha256Loop_eq : ∀ (rest absorbed : List Nat),
    sha256Loop absorbed rest = absorbed ++ rest
  | rest, absorbed => by
    unfold sha256Loop
    split
    · simp_all
    · rename_i h
      rw [sha256Loop_eq (rest.drop 8192) (absorbed ++ rest.take 8192)]
      rw [List.append_assoc, List.take_append_drop]
termination_by rest _ => rest.length
decreasing_by
  simp only [List.length_drop]
  rename_i hne
  have := List.length_pos.mpr hne
  omega

/-- The chunked digest of `compute_sha256` is the digest of the whole byte
sequence: the identifier depends on the content bytes alone. -/
theorem computeSha256_eq (digest : List Nat → String) (bytes : List Nat) :
    computeSha256 digest bytes = digest bytes := by
  unfold computeSha256
  rw [sha256Loop_eq, List.nil_append]

theorem isPrefixOf_append_self : ∀ (a b : List String),
    a.isPrefixOf (a ++ b) = true
  | [], _ => by simp [List.isPrefixOf]
  | x :: xs, b => by
    simp [List.isPrefixOf, isPrefixOf_append_self xs b]

/-- `relative_to` on a path below the root strips the root. -/
theorem relativeTo_append (a b : List String) : relativeTo (a ++ b) a = some b := by
  unfold relativeTo
  rw [isPrefixOf_append_self]
  simp [List.drop_left]

/-- `derive_levels` on a path at depth ≥ 3 below the root yields the first
two relative segments. -/
theorem deriveLevels_deep (rootParts : List String) (l1 l2 : String)
    (rest : List String) (h : rest ≠ []) :
    deriveLevels rootParts (rootParts ++ l1 :: l2 :: rest) = some (l1, l2) := by
  unfold deriveLevels
  rw [relativeTo_append]
  have : ¬((l1 :: l2 :: rest).length < 3) := by
    simp only [List.length_cons]
    have := List.length_pos.mpr h
    omega
  simp [this]
  exact List.length_pos.mpr h

/-- `derive_levels` on a path at depth < 3 below the root fails. -/
theorem deriveLevels_shallow (rootParts rel : List String)
    (h : rel.length < 3) :
    deriveLevels rootParts (rootParts ++ rel) = none := by
  unfold deriveLevels
  rw [relativeTo_append]
  simp [h]

mutual
theorem filesUnder_shape : ∀ (e : FSEntry) (pfx : List String) (fi : FileInfo),
    fi ∈ filesUnder pfx e →
    ∃ rest, rest ≠ [] ∧ fi.parts = pfx ++ rest ∧ rest.getLast? = some fi.name
  | .file n b t, pfx, fi, h => by
    simp only [filesUnder, List.mem_singleton] at h
    subst h
    exact ⟨[n], by simp, rfl, rfl⟩
  | .dir n es, pfx, fi, h => by
    simp only [filesUnder] at h
    obtain ⟨rest, hne, hp, hl⟩ := filesUnderList_shape es (pfx ++ [n]) fi h
    obtain ⟨r, rs, rfl⟩ := List.exists_cons_of_ne_nil hne
    refine ⟨n :: r :: rs, by simp, ?_, ?_⟩
    · rw [hp]; simp
    · rw [List.getLast?_cons_cons]; exact hl

theorem filesUnderList_shape : ∀ (es : List FSEntry) (pfx : List String)
    (fi : FileInfo), fi ∈ filesUnderList pfx es →
    ∃ rest, rest ≠ [] ∧ fi.parts = pfx ++ rest ∧ rest.getLast? = some fi.name
  | [], _, _, h => by simp [filesUnderList] at h
  | e :: es', pfx, fi, h => by
    simp only [filesUnderList] at h
    rcases List.mem_append.mp h with h1 | h2
    · exact filesUnder_shape e pfx fi h1
    · exact filesUnderList_shape es' pfx fi h2
end

theorem mem_ite_take {α : Type} {x : α} {l : List α} {c : Prop} [Decidable c]
    {n : Nat} (h : x ∈ if c then l else l.take n) : x ∈ l := by
  split at h
  · exact h
  · exact List.take_subset _ _ h

/-- Inversion of membership in the batch discovery sequence: every payload
yielded by `iter_documents` passed every one of its checks. -/
theorem mem_iterDocuments {cfg : Config} {rootParts : List String}
    {root : Option (List FSEntry)} {payload : Payload}
    (hmem : payload ∈ iterDocuments cfg rootParts root) :
    isHidden payload.path = false ∧
    strStartsWith payload.file_name ("~$") = false ∧
    strToLower (pySuffix payload.file_name) ∈ ALLOW_EXTS ∧
    payload.ext = lstripDots (strToLower (pySuffix payload.file_name)) ∧
    payload.path.getLast? = some payload.file_name ∧
    (∃ rest, rest ≠ [] ∧
      payload.path = rootParts ++ payload.level1 :: payload.level2 :: rest) ∧
    (cfg.filter_level1 ≠ [] → payload.level1 ∈ cfg.filter_level1) ∧
    (cfg.filter_level2 ≠ [] → payload.level2 ∈ cfg.filter_level2) := by
  cases root with
  | none => simp [iterDocuments] at hmem
  | some entries =>
    simp only [iterDocuments] at hmem
    have hall := mem_ite_take hmem
    rcases List.mem_flatMap.mp hall with ⟨e1, _, h1⟩
    cases e1 with
    | file _ _ _ => simp at h1
    | dir level1 es1 =>
      dsimp only at h1
      by_cases hHid1 : isHidden (rootParts ++ [level1]) = true
      · rw [if_pos hHid1] at h1
        simp at h1
      · rw [if_neg hHid1] at h1
        by_cases hF1 : cfg.filter_level1 ≠ [] ∧ level1 ∉ cfg.filter_level1
        · rw [if_pos hF1] at h1
          simp at h1
        · rw [if_neg hF1] at h1
          rcases List.mem_flatMap.mp h1 with ⟨e2, _, h2⟩
          cases e2 with
          | file _ _ _ => simp at h2
          | dir level2 es2 =>
            dsimp only at h2
            by_cases hHid2 : isHidden (rootParts ++ [level1, level2]) = true
            · rw [if_pos hHid2] at h2
              simp at h2
            · rw [if_neg hHid2] at h2
              by_cases hF2 : cfg.filter_level2 ≠ [] ∧ level2 ∉ cfg.filter_level2
              · rw [if_pos hF2] at h2
                simp at h2
              · rw [if_neg hF2] at h2
                rcases List.mem_filterMap.mp h2 with ⟨fi, hfi, heq⟩
                by_cases hguard :
                    (isHidden fi.parts || strStartsWith fi.name ("~$")) = true
                · rw [if_pos hguard] at heq
                  exact absurd heq (by simp)
                · rw [if_neg hguard] at heq
                  by_cases hext : strToLower (pySuffix fi.name) ∉ ALLOW_EXTS
                  · rw [if_pos hext] at heq
                    exact absurd heq (by simp)
                  · rw [if_neg hext] at heq
                    injection heq with heq
                    subst heq
                    simp only [Bool.or_eq_true, not_or] at hguard
                    obtain ⟨rest, hne, hp, hl⟩ :=
                      filesUnderList_shape es2 (rootParts ++ [level1, level2]) fi hfi
                    refine ⟨?_, ?_, ?_, rfl, ?_, ?_, ?_, ?_⟩
                    · simpa using (Bool.not_eq_true _).mp hguard.1
                    · simpa using (Bool.not_eq_true _).mp hguard.2
                    · simpa using hext
                    · show fi.parts.getLast? = some fi.name
                      rw [hp, List.getLast?_append_of_ne_nil _ hne, hl]
                    · exact ⟨rest, hne, by rw [hp]; simp⟩
                    · intro hne1
                      by_contra hnin
                      exact hF1 ⟨hne1, hnin⟩
                    · intro hne2
                      by_contra hnin
                      exact hF2 ⟨hne2, hnin⟩

/-- `build_doc` reads only the `path`, `file_name`, `level1`, `level2` and
`ext` fields of its payload — in particular never `relative_subpath`. -/
theorem buildDoc_congr (cfg : Config) (digest : List Nat → String)
    (p₁ p₂ : Payload) (bytes : List Nat) (mtime : Nat) (extract : Option Meta)
    (hpath : p₁.path = p₂.path) (hname : p₁.file_name = p₂.file_name)
    (h1 : p₁.level1 = p₂.level1) (h2 : p₁.level2 = p₂.level2)
    (hext : p₁.ext = p₂.ext) :
    buildDoc cfg digest p₁ bytes mtime extract
      = buildDoc cfg digest p₂ bytes mtime extract := by
  cases p₁
  cases p₂
  simp only at hpath hname h1 h2 hext
  subst hpath hname h1 h2 hext
  rfl

/-- Every payload of the batch pass ends up counted: either indexed or
logged as an error — the pass never aborts early. -/
theorem runBatch_accounting (process : Payload → Except String Doc) :
    ∀ (payloads : List Payload) (st : BatchState),
    (runBatch process st payloads).total
      + (runBatch process st payloads).errors.length
      = st.total + st.errors.length + payloads.length
  | [], st => by simp [runBatch]
  | p :: rest, st => by
    have hstep : runBatch process st (p :: rest)
        = runBatch process (batchStep process st p) rest := rfl
    rw [hstep, runBatch_accounting process rest (batchStep process st p)]
    cases hp : process p <;>
      simp [batchStep, hp] <;> omega

theorem mem_insertKey {y x : String} : ∀ {l : List String},
    y ∈ insertKey x l ↔ y = x ∨ y ∈ l
  | [] => by simp [insertKey]
  | z :: zs => by
    simp only [insertKey]
    split
    · simp [List.mem_cons]
    · rw [List.mem_cons, mem_insertKey (l := zs), List.mem_cons]
      tauto

theorem mem_sortKeys {y : String} : ∀ {l : List String},
    y ∈ sortKeys l ↔ y ∈ l
  | [] => Iff.rfl
  | x :: xs => by
    show y ∈ insertKey x (sortKeys xs) ↔ _
    rw [mem_insertKey, mem_sortKeys (l := xs), List.mem_cons]

/-- The document id produced by `build_doc` is the digest of the bytes. -/
theorem buildDoc_docId (cfg : Config) (digest : List Nat → String)
    (p : Payload) (bytes : List Nat) (m : Nat) (e : Option Meta) :
    docId (buildDoc cfg digest p bytes m e) = digest bytes := by
  simp [docId, buildDoc, computeSha256_eq]

/-- A failing `attempt` stream exhausts the spec's retry policy: 5 attempts,
waits 1, 2, 4, 8 between them, failure reported, no 6th attempt. -/
theorem retryCall_exhausted {α : Type} (attempt : Nat → Option α)
    (h : ∀ k, 1 ≤ k → k ≤ 5 → attempt k = none) :
    retryCall attempt = (none, 5, [1, 2, 4, 8]) := by
  have h1 := h 1 (by omega) (by omega)
  have h2 := h 2 (by omega) (by omega)
  have h3 := h 3 (by omega) (by omega)
  have h4 := h 4 (by omega) (by omega)
  have h5 := h 5 (by omega) (by omega)
  simp [retryCall, retryGo, h1, h2, h3, h4, h5, waitExponential]

/-! ## Claims -/

/-- C1: the indexed record's `id` equals the SHA-256 digest of the file's
bytes; any two indexing events over byte-identical content — whatever the
file name, path, payload or stat metadata — produce the same identifier;
the upsert is keyed by that identifier, so indexing the same content twice
leaves the index exactly as indexing it once (no duplicate entry). -/
theorem c1_record_id_is_content_digest (cfg : Config)
    (digest : List Nat → String) (p₁ p₂ : Payload) (bytes : List Nat)
    (m₁ m₂ : Nat) (e₁ e₂ : Option Meta) (idx : Index) (k : String) :
    (buildDoc cfg digest p₁ bytes m₁ e₁).id = digest bytes ∧
    docId (buildDoc cfg digest p₁ bytes m₁ e₁)
      = docId (buildDoc cfg digest p₂ bytes m₂ e₂) ∧
    indexDocument (indexDocument idx (buildDoc cfg digest p₁ bytes m₁ e₁))
        (buildDoc cfg digest p₂ bytes m₂ e₂) k
      = indexDocument idx (buildDoc cfg digest p₂ bytes m₂ e₂) k := by
  refine ⟨by simp [buildDoc, computeSha256_eq], ?_, ?_⟩
  · rw [buildDoc_docId, buildDoc_docId]
  · simp only [indexDocument, buildDoc_docId]
    by_cases hk : k = digest bytes <;> simp [hk]

/-- C4: a file strictly above the OCR size threshold is indexed without any
extraction call — the built record does not depend on the extraction oracle,
has empty text content, and its title is the filename stem; a file at or
below the threshold has the extraction result consulted. -/
theorem c4_size_threshold_policy (cfg : Config) (digest : List Nat → String)
    (payload : Payload) (bytes : List Nat) (mtime : Nat) (e e' : Option Meta) :
    (cfg.max_ocr_mb * (1024 * 1024) < bytes.length →
      buildDoc cfg digest payload bytes mtime e
        = buildDoc cfg digest payload bytes mtime e' ∧
      (buildDoc cfg digest payload bytes mtime e).content = "" ∧
      (payload.path.getLastD ("") = payload.file_name →
        (buildDoc cfg digest payload bytes mtime e).title
          = pyStem payload.file_name)) ∧
    (bytes.length ≤ cfg.max_ocr_mb * (1024 * 1024) →
      buildDocMeta cfg payload bytes.length e = e.getD (defaultMeta payload)) := by
  constructor
  · intro hgt
    have hw : withinOcrLimit cfg bytes.length = false :=
      decide_eq_false (not_le.mpr hgt)
    refine ⟨?_, ?_, ?_⟩
    · simp [buildDoc, buildDocMeta, hw]
    · simp [buildDoc, buildDocMeta, hw, defaultMeta]
    · intro hname
      simp only [buildDoc, buildDocMeta, hw, if_false, defaultMeta, Bool.false_eq_true]
      rw [hname]
      split <;> simp_all
  · intro hle
    have hw : withinOcrLimit cfg bytes.length = true := decide_eq_true hle
    simp [buildDocMeta, hw]

/-- C5: for both remote operations under retry — extraction and index
upsert — a persistently failing call is retried with exponential backoff
starting at 1 time unit, doubling, capped at 8, for at most 5 total
attempts; after the 5th failure the operation reports failure instead of
attempting a 6th call. -/
theorem c5_retry_exhaustion (aE : Nat → Option Meta) (aI : Nat → Option Index)
    (hE : ∀ k, 1 ≤ k → k ≤ 5 → aE k = none)
    (hI : ∀ k, 1 ≤ k → k ≤ 5 → aI k = none) :
    tikaExtractWithRetry aE = (none, 5, [1, 2, 4, 8]) ∧
    indexDocumentWithRetry aI = (none, 5, [1, 2, 4, 8]) :=
  ⟨retryCall_exhausted aE hE, retryCall_exhausted aI hI⟩

/-- C6: when extraction fails (`extract = none`, e.g. after retry
exhaustion) the caller still builds an empty/title-only record instead of
failing; and the batch pass accounts for every payload — each is either
indexed or logged as an error, so a per-file failure never aborts the
pass. -/
theorem c6_failure_tolerance :
    (∀ (cfg : Config) (digest : List Nat → String) (payload : Payload)
        (bytes : List Nat) (mtime : Nat),
      (buildDoc cfg digest payload bytes mtime none).content = "" ∧
      (buildDoc cfg digest payload bytes mtime none).media_type = "" ∧
      (payload.path.getLastD ("") = payload.file_name →
        (buildDoc cfg digest payload bytes mtime none).title
          = pyStem payload.file_name)) ∧
    (∀ (process : Payload → Except String Doc) (st : BatchState)
        (payloads : List Payload),
      (runBatch process st payloads).total
        + (runBatch process st payloads).errors.length
        = st.total + st.errors.length + payloads.length) := by
  constructor
  · intro cfg digest payload bytes mtime
    have hm : buildDocMeta cfg payload bytes.length none = defaultMeta payload := by
      simp [buildDocMeta]
    refine ⟨?_, ?_, ?_⟩
    · simp [buildDoc, hm, defaultMeta]
    · simp [buildDoc, hm, defaultMeta]
    · intro hname
      simp only [buildDoc, hm, defaultMeta]
      rw [hname]
      split <;> simp_all
  · intro process st payloads
    exact runBatch_accounting process payloads st

/-- C8: a missing document root degrades the disk scan to empty statistics
(zero totals, empty per-category maps) and the stats endpoint still answers
successfully, while any failure of the index aggregation query is surfaced
as an HTTP 502 upstream-service error. -/
theorem c8_stats_degradation_and_upstream_error (rootParts : List String)
    (root : Option (List FSEntry)) (idxStats : IndexStats) (e : String) :
    scanDiskStats rootParts none
      = { root := rootParts, total := 0, by_level1 := [], by_level2 := []
        , by_level1_level2 := [] } ∧
    statsEndpoint rootParts none (Except.ok idxStats)
      = Except.ok
          { doc_root := rootParts
          , disk := scanDiskStats rootParts none
          , index := idxStats
          , diff :=
            { total_missing := (0 : Int) - (idxStats.total : Int)
            , by_level1_missing := diffMaps [] idxStats.by_level1
            , by_level2_missing := diffMaps [] idxStats.by_level2 } } ∧
    statsEndpoint rootParts root (Except.error e)
      = Except.error (502, "OpenSearch error: " ++ e) := by
  refine ⟨rfl, rfl, ?_⟩
  simp [statsEndpoint]

/-- When `derive_levels` yields nothing, `index_path` silently drops the
event, whatever the other guards say. -/
theorem indexPath_of_deriveLevels_none (cfg : Config)
    (digest : List Nat → String) (rootParts fileParts : List String)
    (fstate : Option (Bool × List Nat × Nat)) (extract : Option Meta)
    (indexOk : Bool) (h : deriveLevels rootParts fileParts = none) :
    indexPath cfg digest rootParts fileParts fstate extract indexOk
      = WatchAction.skipped := by
  cases fstate with
  | none => rfl
  | some t =>
    obtain ⟨isFile, bytes, mtime⟩ := t
    cases isFile
    · rfl
    · simp [indexPath, h]

/-- A watch event for an existing regular file with an allowed extension at
depth ≥ 3 under the root is extracted and indexed. -/
theorem indexPath_deep_allowed (cfg : Config) (digest : List Nat → String)
    (rootParts : List String) (l1 l2 : String) (rest : List String)
    (bytes : List Nat) (mtime : Nat) (extract : Option Meta)
    (hne : rest ≠ [])
    (hext : strToLower (pySuffix ((rootParts ++ l1 :: l2 :: rest).getLastD ("")))
      ∈ ALLOW_EXTS) :
    indexPath cfg digest rootParts (rootParts ++ l1 :: l2 :: rest)
        (some (true, bytes, mtime)) extract true
      = WatchAction.indexed (buildDoc cfg digest
          { path := rootParts ++ l1 :: l2 :: rest
          , file_name := (rootParts ++ l1 :: l2 :: rest).getLastD ("")
          , level1 := l1, level2 := l2
          , ext := lstripDots
              (strToLower (pySuffix ((rootParts ++ l1 :: l2 :: rest).getLastD (""))))
          , relative_subpath := "" } bytes mtime extract) := by
  have hd := deriveLevels_deep rootParts l1 l2 rest hne
  simp only [indexPath, hd]
  rw [if_neg (not_not_intro hext)]
  rfl

/-- C2 (amended): in the batch pass no payload is ever yielded for a file
whose path contains a hidden segment or whose name starts with the office
temp-lock marker; the watch-triggered path performs neither check (see the
counterexample), so the guarantee holds for the batch pass only. -/
theorem c2_batch_never_indexes_hidden_or_lock {cfg : Config}
    {rootParts : List String} {root : Option (List FSEntry)}
    {payload : Payload} (hmem : payload ∈ iterDocuments cfg rootParts root) :
    isHidden payload.path = false ∧
    strStartsWith payload.file_name ("~$") = false :=
  ⟨(mem_iterDocuments hmem).1, (mem_iterDocuments hmem).2.1⟩

/-- C2 counterexample: a watch event for office lock file
`root/c1/c2/~$b.docx` — and likewise for `root/c1/.hid/a.pdf`, whose path
has a hidden segment — is indexed by `index_path`, refuting the claim for
the watch-triggered path. -/
theorem c2_watch_indexes_hidden_and_lock_counterexample :
    strStartsWith ("~$b.docx") ("~$") = true ∧
    indexPath cfgNil dig0 ["root"] ["root", "c1", "c2", "~$b.docx"]
        (some (true, [], 0)) none true
      = WatchAction.indexed
          { id := "h", path := ["root", "c1", "c2", "~$b.docx"]
          , file_name := "~$b.docx", level1 := "c1", level2 := "c2"
          , title := "~$b", content := "", media_type := "", ext := "docx"
          , modified_at := 0, size_bytes := 0, sha256 := "h"
          , suggest := ["c1", "c2", "~$b"] } ∧
    isHidden ["root", "c1", ".hid", "a.pdf"] = true ∧
    indexPath cfgNil dig0 ["root"] ["root", "c1", ".hid", "a.pdf"]
        (some (true, [], 0)) none true
      = WatchAction.indexed
          { id := "h", path := ["root", "c1", ".hid", "a.pdf"]
          , file_name := "a.pdf", level1 := "c1", level2 := ".hid"
          , title := "a", content := "", media_type := "", ext := "pdf"
          , modified_at := 0, size_bytes := 0, sha256 := "h"
          , suggest := ["c1", ".hid", "a"] } := by
  have hs : computeSha256 dig0 [] = "h" := computeSha256_eq _ _
  refine ⟨by decide, ?_, by decide, ?_⟩ <;>
    · simp only [indexPath, buildDoc, hs]
      decide

/-- C3: a file whose path relative to the root has fewer than three
segments is never indexed and raises no error (classification is empty and
the watch event is silently dropped); at depth three or more the derived
categories — and hence the record's `level1`/`level2` written by both
trigger paths — are the first two path segments below the root. -/
theorem c3_depth_classification :
    (∀ (cfg : Config) (digest : List Nat → String) (rootParts : List String)
        (fstate : Option (Bool × List Nat × Nat)) (extract : Option Meta)
        (indexOk : Bool) (rel : List String),
      rel.length < 3 →
      deriveLevels rootParts (rootParts ++ rel) = none ∧
      indexPath cfg digest rootParts (rootParts ++ rel) fstate extract indexOk
        = WatchAction.skipped) ∧
    (∀ (rootParts : List String) (l1 l2 : String) (rest : List String),
      rest ≠ [] →
      deriveLevels rootParts (rootParts ++ l1 :: l2 :: rest) = some (l1, l2)) ∧
    (∀ (cfg : Config) (digest : List Nat → String)
        (rootParts fileParts : List String) (bytes : List Nat) (mtime : Nat)
        (extract : Option Meta) (doc : Doc),
      indexPath cfg digest rootParts fileParts (some (true, bytes, mtime))
          extract true = WatchAction.indexed doc →
      deriveLevels rootParts fileParts = some (doc.level1, doc.level2)) ∧
    (∀ (cfg : Config) (rootParts : List String) (root : Option (List FSEntry))
        (payload : Payload), payload ∈ iterDocuments cfg rootParts root →
      ∃ rest, rest ≠ [] ∧
        payload.path = rootParts ++ payload.level1 :: payload.level2 :: rest ∧
        ∀ (digest : List Nat → String) (bytes : List Nat) (mtime : Nat)
            (extract : Option Meta),
          (buildDoc cfg digest payload bytes mtime extract).level1
            = payload.level1 ∧
          (buildDoc cfg digest payload bytes mtime extract).level2
            = payload.level2) := by
  refine ⟨?_, ?_, ?_, ?_⟩
  · intro cfg digest rootParts fstate extract indexOk rel h
    have hd := deriveLevels_shallow rootParts rel h
    exact ⟨hd, indexPath_of_deriveLevels_none cfg digest rootParts
      (rootParts ++ rel) fstate extract indexOk hd⟩
  · exact deriveLevels_deep
  · intro cfg digest rootParts fileParts bytes mtime extract doc h
    by_cases hext :
        strToLower (pySuffix (fileParts.getLastD (""))) ∉ ALLOW_EXTS
    · simp only [indexPath] at h
      rw [if_pos hext] at h
      have h2 : WatchAction.skipped = WatchAction.indexed doc := h
      exact absurd h2 (by simp)
    · cases hd : deriveLevels rootParts fileParts with
      | none =>
        rw [indexPath_of_deriveLevels_none cfg digest rootParts fileParts
          (some (true, bytes, mtime)) extract true hd] at h
        exact absurd h (by simp)
      | some p =>
        obtain ⟨l1, l2⟩ := p
        simp only [indexPath, hd] at h
        rw [if_neg hext] at h
        have h2 : WatchAction.indexed (buildDoc cfg digest
            { path := fileParts, file_name := fileParts.getLastD ("")
            , level1 := l1, level2 := l2
            , ext := lstripDots (strToLower (pySuffix (fileParts.getLastD (""))))
            , relative_subpath := "" } bytes mtime extract)
            = WatchAction.indexed doc := h
        injection h2 with h3
        rw [← h3]
        rfl
  · intro cfg rootParts root payload hmem
    obtain ⟨_, _, _, _, _, ⟨rest, hne, hshape⟩, _, _⟩ := mem_iterDocuments hmem
    exact ⟨rest, hne, hshape, fun digest bytes mtime extract => ⟨rfl, rfl⟩⟩

/-- C7: the reconciliation diff of `/api/stats` is computed over the union
of the categories seen on disk and in the index, as disk count minus index
count with absent categories counting zero; on the spec's example it yields
`{A: 1, B: 0}`; and the endpoint's `diff` fields are exactly these maps. -/
theorem c7_reconciliation_diff :
    (∀ (a b : List (String × Nat)) (kv : String × Int), kv ∈ diffMaps a b →
      kv.2 = (lookupCount a kv.1 : Int) - (lookupCount b kv.1 : Int)) ∧
    (∀ (a b : List (String × Nat)) (k : String),
      k ∈ a.map Prod.fst ∨ k ∈ b.map Prod.fst →
      k ∈ (diffMaps a b).map Prod.fst) ∧
    diffMaps [("A", 3), ("B", 2)] [("A", 2), ("B", 2)]
      = [("A", 1), ("B", 0)] ∧
    (∀ (rootParts : List String) (root : Option (List FSEntry))
        (idxStats : IndexStats) (resp : StatsResponse),
      statsEndpoint rootParts root (Except.ok idxStats) = Except.ok resp →
      resp.diff.by_level1_missing
        = diffMaps (scanDiskStats rootParts root).by_level1 idxStats.by_level1 ∧
      resp.diff.by_level2_missing
        = diffMaps (scanDiskStats rootParts root).by_level2 idxStats.by_level2 ∧
      resp.diff.total_missing
        = ((scanDiskStats rootParts root).total : Int)
          - (idxStats.total : Int)) := by
  refine ⟨?_, ?_, by decide, ?_⟩
  · intro a b kv hkv
    simp only [diffMaps] at hkv
    rcases List.mem_map.mp hkv with ⟨k, _, rfl⟩
    rfl
  · intro a b k hk
    simp only [diffMaps, List.map_map]
    exact List.mem_map.mpr
      ⟨k, mem_sortKeys.mpr (List.mem_dedup.mpr (List.mem_append.mpr hk)), rfl⟩
  · intro rootParts root idxStats resp h
    simp only [statsEndpoint] at h
    injection h with h
    subst h
    exact ⟨rfl, rfl, rfl⟩

/-- C9 (implicit): the watch-triggered path applies neither the category
allow-lists nor the maximum-document cap — `index_path` behaves identically
under any `FILTER_LEVEL1`/`FILTER_LEVEL2`/`MAX_DOCS` setting, and a regular
file with an allowed extension at depth ≥ 3 is extracted and indexed even
when its categories are excluded by the allow-lists that do restrict the
batch pass. -/
theorem c9_watch_ignores_filters_and_cap :
    (∀ (cfg : Config) (digest : List Nat → String)
        (rootParts fileParts : List String)
        (fstate : Option (Bool × List Nat × Nat)) (extract : Option Meta)
        (indexOk : Bool) (f1 f2 : List String) (md : Nat),
      indexPath
          { cfg with filter_level1 := f1, filter_level2 := f2, max_docs := md }
          digest rootParts fileParts fstate extract indexOk
        = indexPath cfg digest rootParts fileParts fstate extract indexOk) ∧
    (∀ (cfg : Config) (digest : List Nat → String) (rootParts : List String)
        (l1 l2 : String) (rest : List String) (bytes : List Nat) (mtime : Nat)
        (extract : Option Meta),
      rest ≠ [] →
      strToLower (pySuffix ((rootParts ++ l1 :: l2 :: rest).getLastD ("")))
        ∈ ALLOW_EXTS →
      indexPath cfg digest rootParts (rootParts ++ l1 :: l2 :: rest)
          (some (true, bytes, mtime)) extract true
        = WatchAction.indexed (buildDoc cfg digest
            { path := rootParts ++ l1 :: l2 :: rest
            , file_name := (rootParts ++ l1 :: l2 :: rest).getLastD ("")
            , level1 := l1, level2 := l2
            , ext := lstripDots
                (strToLower (pySuffix ((rootParts ++ l1 :: l2 :: rest).getLastD (""))))
            , relative_subpath := "" } bytes mtime extract)) ∧
    (∀ (cfg : Config) (rootParts : List String) (root : Option (List FSEntry))
        (payload : Payload), payload ∈ iterDocuments cfg rootParts root →
      (cfg.filter_level1 ≠ [] → payload.level1 ∈ cfg.filter_level1) ∧
      (cfg.filter_level2 ≠ [] → payload.level2 ∈ cfg.filter_level2)) := by
  refine ⟨?_, ?_, ?_⟩
  · intro cfg digest rootParts fileParts fstate extract indexOk f1 f2 md
    rfl
  · intro cfg digest rootParts l1 l2 rest bytes mtime extract hne hext
    exact indexPath_deep_allowed cfg digest rootParts l1 l2 rest bytes mtime
      extract hne hext
  · intro cfg rootParts root payload hmem
    exact (mem_iterDocuments hmem).2.2.2.2.2.2

/-- C10 (implicit): record construction depends only on the payload's path,
name, extension and the two category labels — never on `relative_subpath`,
the one field where the batch and watch payloads differ — so for any file
accepted by the batch pass, a watch event on the same file builds exactly
the record the batch pass builds, given the same filesystem state and
extraction outcome. -/
theorem c10_batch_watch_build_equivalence :
    (∀ (cfg : Config) (digest : List Nat → String) (p₁ p₂ : Payload)
        (bytes : List Nat) (mtime : Nat) (extract : Option Meta),
      p₁.path = p₂.path → p₁.file_name = p₂.file_name →
      p₁.level1 = p₂.level1 → p₁.level2 = p₂.level2 → p₁.ext = p₂.ext →
      buildDoc cfg digest p₁ bytes mtime extract
        = buildDoc cfg digest p₂ bytes mtime extract) ∧
    (∀ (cfg : Config) (digest : List Nat → String) (rootParts : List String)
        (root : Option (List FSEntry)) (payload : Payload) (bytes : List Nat)
        (mtime : Nat) (extract : Option Meta),
      payload ∈ iterDocuments cfg rootParts root →
      indexPath cfg digest rootParts payload.path (some (true, bytes, mtime))
          extract true
        = WatchAction.indexed (buildDoc cfg digest payload bytes mtime extract)) := by
  constructor
  · exact buildDoc_congr
  · intro cfg digest rootParts root payload bytes mtime extract hmem
    obtain ⟨_, _, hext, hextEq, hlast, ⟨rest, hne, hshape⟩, _, _⟩ :=
      mem_iterDocuments hmem
    have hname : payload.path.getLastD ("") = payload.file_name := by
      rw [List.getLastD_eq_getLast?, hlast]
      rfl
    have hext2 : strToLower (pySuffix
        ((rootParts ++ payload.level1 :: payload.level2 :: rest).getLastD ("")))
        ∈ ALLOW_EXTS := by
      rw [← hshape, hname]
      exact hext
    rw [hshape, indexPath_deep_allowed cfg digest rootParts payload.level1
      payload.level2 rest bytes mtime extract hne hext2]
    congr 1
    apply buildDoc_congr
    · exact hshape.symm
    · show (rootParts ++ payload.level1 :: payload.level2 :: rest).getLastD ("")
        = payload.file_name
      rw [← hshape]
      exact hname
    · rfl
    · rfl
    · show lstripDots (strToLower (pySuffix
          ((rootParts ++ payload.level1 :: payload.level2 :: rest).getLastD (""))))
        = payload.ext
      rw [← hshape, hname]
      exact hextEq.symm

/-! ## Witnesses -/

/-- C2 witness: the example file `root/c1/c2/a.pdf` is discovered by the
batch pass and is neither hidden nor a lock file. -/
theorem c2_witness :
    payEx ∈ iterDocuments cfgNil ["root"] (some fsEx) ∧
    isHidden payEx.path = false ∧
    strStartsWith payEx.file_name ("~$") = false :=
  ⟨by decide,
    (@c2_batch_never_indexes_hidden_or_lock cfgNil ["root"] (some fsEx) payEx
      (by decide)).1,
    (@c2_batch_never_indexes_hidden_or_lock cfgNil ["root"] (some fsEx) payEx
      (by decide)).2⟩

/-- C3 witness: a depth-2 event is dropped without error, and at depth 3 the
derived categories are the first two relative segments. -/
theorem c3_witness :
    (deriveLevels ["root"] (["root"] ++ ["c1", "f.pdf"]) = none ∧
      indexPath cfgNil dig0 ["root"] (["root"] ++ ["c1", "f.pdf"])
        (some (true, [], 0)) none true = WatchAction.skipped) ∧
    deriveLevels ["root"] (["root"] ++ "c1" :: "c2" :: ["a.pdf"])
      = some ("c1", "c2") :=
  ⟨c3_depth_classification.1 cfgNil dig0 ["root"] (some (true, [], 0)) none
    true ["c1", "f.pdf"] (by decide),
   c3_depth_classification.2.1 ["root"] "c1" "c2" ["a.pdf"] (by decide)⟩

/-- C4 witness: with a zero MB threshold, a 1-byte file skips extraction
(record independent of the oracle, empty content, stem title), while under
the default threshold the extraction result is consulted. -/
theorem c4_witness :
    (cfgZeroOcr.max_ocr_mb * (1024 * 1024) < ([7] : List Nat).length) ∧
    buildDoc cfgZeroOcr dig0 payEx [7] 3
        (some { title := "T", content := "C", media_type := "M" })
      = buildDoc cfgZeroOcr dig0 payEx [7] 3 none ∧
    (buildDoc cfgZeroOcr dig0 payEx [7] 3
        (some { title := "T", content := "C", media_type := "M" })).content
      = "" ∧
    (buildDoc cfgZeroOcr dig0 payEx [7] 3
        (some { title := "T", content := "C", media_type := "M" })).title
      = pyStem payEx.file_name ∧
    buildDocMeta cfgNil payEx ([7] : List Nat).length
        (some { title := "T", content := "C", media_type := "M" })
      = (some { title := "T", content := "C", media_type := "M" }).getD
          (defaultMeta payEx) :=
  have h := (c4_size_threshold_policy cfgZeroOcr dig0 payEx [7] 3
    (some { title := "T", content := "C", media_type := "M" }) none).1
    (by decide)
  ⟨by decide, h.1, h.2.1, h.2.2 (by decide),
    (c4_size_threshold_policy cfgNil dig0 payEx [7] 3
      (some { title := "T", content := "C", media_type := "M" }) none).2
      (by decide)⟩

/-- C5 witness: an always-failing attempt stream is stopped after exactly 5
attempts with waits 1, 2, 4, 8, for both retried operations. -/
theorem c5_witness :
    tikaExtractWithRetry (fun _ => none) = (none, 5, [1, 2, 4, 8]) ∧
    indexDocumentWithRetry (fun _ => none) = (none, 5, [1, 2, 4, 8]) :=
  c5_retry_exhaustion (fun _ => none) (fun _ => none)
    (fun _ _ _ => rfl) (fun _ _ _ => rfl)

/-- C6 witness: a failed extraction still yields an empty/title-only
record, and a batch over one always-failing payload logs it and
completes. -/
theorem c6_witness :
    (buildDoc cfgNil dig0 payEx [] 0 none).content = "" ∧
    (buildDoc cfgNil dig0 payEx [] 0 none).title = pyStem payEx.file_name ∧
    (runBatch procFail st0 [payEx]).total
      + (runBatch procFail st0 [payEx]).errors.length = 0 + 0 + 1 :=
  ⟨(c6_failure_tolerance.1 cfgNil dig0 payEx [] 0).1,
   (c6_failure_tolerance.1 cfgNil dig0 payEx [] 0).2.2 (by decide),
   c6_failure_tolerance.2 procFail st0 [payEx]⟩

/-- C7 witness: on the spec's example maps, the entry for `A` is in the
diff and carries disk count minus index count. -/
theorem c7_witness :
    (("A", (1 : Int)) ∈ diffMaps [("A", 3), ("B", 2)] [("A", 2), ("B", 2)]) ∧
    (("A", (1 : Int)) : String × Int).2
      = (lookupCount [("A", 3), ("B", 2)] "A" : Int)
        - (lookupCount [("A", 2), ("B", 2)] "A" : Int) :=
  ⟨by decide, c7_reconciliation_diff.1 [("A", 3), ("B", 2)]
    [("A", 2), ("B", 2)] ("A", 1) (by decide)⟩

/-- C9 witness: with `FILTER_LEVEL1 = X` (which excludes `c1` from the
batch pass), a watch event on `root/c1/c2/a.pdf` is still indexed. -/
theorem c9_witness :
    ("c1" ∉ cfgFiltered.filter_level1 ∧ cfgFiltered.filter_level1 ≠ []) ∧
    indexPath cfgFiltered dig0 ["root"] (["root"] ++ "c1" :: "c2" :: ["a.pdf"])
        (some (true, [7], 3)) none true
      = WatchAction.indexed (buildDoc cfgFiltered dig0
          { path := ["root"] ++ "c1" :: "c2" :: ["a.pdf"]
          , file_name := (["root"] ++ "c1" :: "c2" :: ["a.pdf"]).getLastD ("")
          , level1 := "c1", level2 := "c2"
          , ext := lstripDots (strToLower
              (pySuffix ((["root"] ++ "c1" :: "c2" :: ["a.pdf"]).getLastD (""))))
          , relative_subpath := "" } [7] 3 none) :=
  ⟨by decide, c9_watch_ignores_filters_and_cap.2.1 cfgFiltered dig0 ["root"]
    "c1" "c2" ["a.pdf"] [7] 3 none (by decide) (by decide)⟩

/-- C10 witness: for the file both paths accept, the watch event builds
exactly the record built from the batch payload. -/
theorem c10_witness :
    payEx ∈ iterDocuments cfgNil ["root"] (some fsEx) ∧
    indexPath cfgNil dig0 ["root"] payEx.path (some (true, [7], 3)) none true
      = WatchAction.indexed (buildDoc cfgNil dig0 payEx [7] 3 none) :=
  ⟨by decide, c10_batch_watch_build_equivalence.2 cfgNil dig0 ["root"]
    (some fsEx) payEx [7] 3 none (by decide)⟩

end NDF
